import Mathlib

/-!
Verification of the terminal-portfolio TUI core against its specification.

The definitions below are a shallow embedding of the Go sources of the
repository (tui/internal/app and tui/internal/app/sections).  Go machine
integers are modelled as Lean Int (no arithmetic here approaches 2^63),
Go float64 values are modelled as rationals (every float operation that
matters to a settled claim is exact in IEEE double precision, as noted at
each definition), and Bubbletea commands and messages are modelled as
explicit inductive types.  Mutating pointer-receiver methods are modelled
as functions returning the updated value.
-/

set_option maxRecDepth 4096

/-- Truncation of a rational toward zero.  Models the Go conversion
int(x) applied to a float64 value x; rationals stand in for floats. -/
def ratTrunc (q : ℚ) : Int := q.num.tdiv q.den

/-- Helper for stringSplitNl: accumulates the current line in reverse. -/
def splitNlAux : List Char → List Char → List String
  | [], acc => [String.mk acc.reverse]
  | c :: cs, acc =>
    if c = '\n' then String.mk acc.reverse :: splitNlAux cs []
    else splitNlAux cs (c :: acc)

/-- Go strings.Split(s, "\n"): cut s at every newline.  The empty string
yields the single-element list [""].  (Structurally recursive stand-in for
String.splitOn, which the kernel cannot evaluate.) -/
def stringSplitNl (s : String) : List String := splitNlAux s.data []

/-! ## Viewport (tui/internal/app/viewport.go) -/

/-- Scrollable content viewer state, from viewport.go.  Field for field the
Go struct Viewport: content, lines, width, height, yOffset. -/
structure Viewport where
  content : String
  lines : List String
  width : Int
  height : Int
  yOffset : Int
deriving Repr, DecidableEq

/-- NewViewport: the Go zero value has empty content, a nil lines slice and
yOffset 0; only width and height are set. -/
def NewViewport (width height : Int) : Viewport :=
  { content := "", lines := [], width := width, height := height, yOffset := 0 }

namespace Viewport

/-- TotalLines returns the number of lines in the content. -/
def TotalLines (v : Viewport) : Nat := v.lines.length

/-- maxOffset returns the maximum valid yOffset: len(lines) - height,
floored at 0. -/
def maxOffset (v : Viewport) : Int :=
  let m := (v.lines.length : Int) - v.height
  if m < 0 then 0 else m

/-- clampOffset ensures yOffset stays within [0, maxOffset]: first the
negative clamp, then the upper clamp, exactly as in the Go code (the two
sequential mutations only touch yOffset, on which maxOffset does not
depend, so they are modelled as two chained conditionals). -/
def clampOffset (v : Viewport) : Viewport :=
  let y1 := if v.yOffset < 0 then 0 else v.yOffset
  let y2 := if y1 > v.maxOffset then v.maxOffset else y1
  { v with yOffset := y2 }

/-- AtTop returns true when the viewport is scrolled to the top. -/
def AtTop (v : Viewport) : Bool := v.yOffset ≤ 0

/-- AtBottom returns true when scrolled to the bottom or when all content
fits without scrolling. -/
def AtBottom (v : Viewport) : Bool := v.yOffset ≥ v.maxOffset

/-- RawScrollPercent returns the scroll position in [0,1]; 1 when nothing
scrolls.  The Go float64 division is modelled as exact rational division. -/
def RawScrollPercent (v : Viewport) : ℚ :=
  if v.maxOffset ≤ 0 then 1 else (v.yOffset : ℚ) / (v.maxOffset : ℚ)

/-- SetContent loads text and resets the scroll position to the top.
Go strings.Split(content, "\n") is stringSplitNl. -/
def SetContent (v : Viewport) (content : String) : Viewport :=
  { v with content := content, lines := stringSplitNl content, yOffset := 0 }

/-- SetContentPreserveScroll replaces the content keeping the reading
position: at top stays at top, else at bottom stays at bottom, else the
proportional position is restored; finally the offset is clamped. -/
def SetContentPreserveScroll (v : Viewport) (content : String) : Viewport :=
  let wasAtBottom := v.AtBottom
  let wasAtTop := v.AtTop
  let oldPercent := v.RawScrollPercent
  let v := { v with content := content, lines := stringSplitNl content }
  let v :=
    if wasAtTop then { v with yOffset := 0 }
    else if wasAtBottom then { v with yOffset := v.maxOffset }
    else { v with yOffset := ratTrunc (oldPercent * (v.maxOffset : ℚ)) }
  v.clampOffset

/-- SetSize updates the dimensions and clamps the scroll offset. -/
def SetSize (v : Viewport) (width height : Int) : Viewport :=
  ({ v with width := width, height := height }).clampOffset

/-- ScrollUp scrolls up by n lines. -/
def ScrollUp (v : Viewport) (n : Int) : Viewport :=
  ({ v with yOffset := v.yOffset - n }).clampOffset

/-- ScrollDown scrolls down by n lines. -/
def ScrollDown (v : Viewport) (n : Int) : Viewport :=
  ({ v with yOffset := v.yOffset + n }).clampOffset

/-- ScrollToTop scrolls to the very top. -/
def ScrollToTop (v : Viewport) : Viewport := { v with yOffset := 0 }

/-- ScrollToBottom scrolls to the very bottom. -/
def ScrollToBottom (v : Viewport) : Viewport := { v with yOffset := v.maxOffset }

end Viewport

/-! ### Claim C1: the scroll-offset invariant -/

/-- One public mutation of the scroll state, as quantified by the spec:
ScrollUp(n), ScrollDown(n) or SetSize(w,h) with arbitrary integers. -/
inductive ScrollOp where
  | scrollUp (n : Int)
  | scrollDown (n : Int)
  | setSize (w h : Int)
deriving Repr, DecidableEq

/-- Apply one scroll operation to a viewport. -/
def applyScrollOp (v : Viewport) : ScrollOp → Viewport
  | .scrollUp n => v.ScrollUp n
  | .scrollDown n => v.ScrollDown n
  | .setSize w h => v.SetSize w h

/-- Apply a finite sequence of scroll operations in order. -/
def applyScrollOps (v : Viewport) (ops : List ScrollOp) : Viewport :=
  ops.foldl applyScrollOp v

/-- The spec invariant: 0 <= yOffset <= max(0, totalLines - height). -/
def scrollInvariant (v : Viewport) : Prop :=
  0 ≤ v.yOffset ∧ v.yOffset ≤ max 0 ((v.TotalLines : Int) - v.height)

theorem Viewport.maxOffset_eq_max (v : Viewport) :
    v.maxOffset = max 0 ((v.TotalLines : Int) - v.height) := by
  simp only [Viewport.maxOffset, Viewport.TotalLines]
  split <;> omega

theorem Viewport.maxOffset_nonneg (v : Viewport) : 0 ≤ v.maxOffset := by
  simp only [Viewport.maxOffset]
  split <;> omega

theorem Viewport.clampOffset_lines (v : Viewport) :
    v.clampOffset.lines = v.lines := rfl

theorem Viewport.clampOffset_height (v : Viewport) :
    v.clampOffset.height = v.height := rfl

theorem Viewport.clampOffset_bounds (v : Viewport) :
    0 ≤ v.clampOffset.yOffset ∧ v.clampOffset.yOffset ≤ v.maxOffset := by
  have hm : 0 ≤ v.maxOffset := v.maxOffset_nonneg
  simp only [Viewport.clampOffset]
  split_ifs <;> constructor <;> omega

theorem scrollInvariant_clampOffset (v : Viewport) :
    scrollInvariant v.clampOffset := by
  have hb := v.clampOffset_bounds
  have hmax : v.clampOffset.maxOffset = v.maxOffset := by
    simp only [Viewport.maxOffset, Viewport.clampOffset_lines, Viewport.clampOffset_height]
  constructor
  · exact hb.1
  · have := v.clampOffset.maxOffset_eq_max
    rw [hmax] at this
    have : max 0 ((v.clampOffset.TotalLines : Int) - v.clampOffset.height) = v.maxOffset := by
      rw [← this]
    omega

theorem scrollInvariant_applyScrollOp (v : Viewport) (op : ScrollOp) :
    scrollInvariant (applyScrollOp v op) := by
  cases op <;>
    simp only [applyScrollOp, Viewport.ScrollUp, Viewport.ScrollDown, Viewport.SetSize] <;>
    exact scrollInvariant_clampOffset _

theorem scrollInvariant_applyScrollOps (v : Viewport) (ops : List ScrollOp)
    (h : scrollInvariant v) : scrollInvariant (applyScrollOps v ops) := by
  induction ops generalizing v with
  | nil => exact h
  | cons op ops ih => exact ih _ (scrollInvariant_applyScrollOp v op)

theorem scrollInvariant_SetContent (v : Viewport) (content : String) :
    scrollInvariant (v.SetContent content) := by
  refine ⟨le_refl 0, ?_⟩
  exact le_max_left _ _

/-- Claim C1: immediately after SetContent, and after any finite sequence of
ScrollUp/ScrollDown/SetSize calls with arbitrary integer arguments, the
scroll offset satisfies 0 <= yOffset <= max(0, totalLines - height). -/
theorem C1_scroll_offset_invariant (v : Viewport) (content : String)
    (ops : List ScrollOp) :
    scrollInvariant (v.SetContent content) ∧
      scrollInvariant (applyScrollOps (v.SetContent content) ops) :=
  ⟨scrollInvariant_SetContent v content,
    scrollInvariant_applyScrollOps _ ops (scrollInvariant_SetContent v content)⟩

/-! ### Claims C2 and C10: SetContentPreserveScroll at the edges -/

theorem Viewport.clampOffset_maxOffset (v : Viewport) :
    v.clampOffset.maxOffset = v.maxOffset := rfl

theorem Viewport.clampOffset_yOffset_of_nonpos (v : Viewport)
    (h : v.yOffset ≤ 0) : v.clampOffset.yOffset = 0 := by
  have hm := v.maxOffset_nonneg
  simp only [Viewport.clampOffset]
  split_ifs <;> omega

theorem Viewport.clampOffset_yOffset_of_ge_max (v : Viewport)
    (h : v.maxOffset ≤ v.yOffset) : v.clampOffset.yOffset = v.maxOffset := by
  have hm := v.maxOffset_nonneg
  simp only [Viewport.clampOffset]
  split_ifs <;> omega

theorem Viewport.AtTop_iff (v : Viewport) : v.AtTop = true ↔ v.yOffset ≤ 0 := by
  simp [Viewport.AtTop]

theorem Viewport.AtBottom_iff (v : Viewport) :
    v.AtBottom = true ↔ v.maxOffset ≤ v.yOffset := by
  simp [Viewport.AtBottom, ge_iff_le]

/-- Counterexample to claim C2 as stated: a viewport whose single line of
content fits in its 2-row window is AtBottom (and AtTop), yet after
SetContentPreserveScroll with five lines of content it is no longer at
the bottom — the at-top rule wins. -/
theorem C2_counterexample :
    (((NewViewport 10 2).SetContent "a").AtBottom = true) ∧
      ((((NewViewport 10 2).SetContent "a").SetContentPreserveScroll
          "a\nb\nc\nd\ne").AtBottom = false) := by
  constructor <;> decide

/-- Claim C2, amended: after SetContentPreserveScroll, a viewport that was
at the top stays at the top of the new content; one that was at the bottom
and not simultaneously at the top stays at the bottom of the new content,
regardless of the new content length. -/
theorem C2_preserve_scroll_edges (v : Viewport) (content : String) :
    (v.AtTop = true → (v.SetContentPreserveScroll content).AtTop = true) ∧
      (v.AtBottom = true → v.AtTop = false →
        (v.SetContentPreserveScroll content).AtBottom = true) := by
  constructor
  · intro h
    simp only [Viewport.SetContentPreserveScroll, h, if_true]
    rw [Viewport.AtTop_iff]
    rw [Viewport.clampOffset_yOffset_of_nonpos _ (le_refl 0)]
  · intro hb ht
    simp only [Viewport.SetContentPreserveScroll, hb, ht, Bool.false_eq_true,
      if_false, if_true]
    rw [Viewport.AtBottom_iff, Viewport.clampOffset_maxOffset]
    rw [Viewport.clampOffset_yOffset_of_ge_max]
    exact le_refl _

/-- Witness for the amended claim C2 at concrete inputs: a 4-line viewport
at the top stays at the top, and the same viewport scrolled to the bottom
(offset 2, so not at the top) stays at the bottom of 6-line new content. -/
theorem C2_preserve_scroll_edges_witness :
    ((((NewViewport 10 2).SetContent "a\nb\nc\nd").SetContentPreserveScroll
        "x\ny\nz").AtTop = true) ∧
      (((((NewViewport 10 2).SetContent "a\nb\nc\nd").ScrollToBottom).SetContentPreserveScroll
          "p\nq\nr\ns\nt\nu").AtBottom = true) :=
  ⟨(C2_preserve_scroll_edges ((NewViewport 10 2).SetContent "a\nb\nc\nd")
      "x\ny\nz").1 (by decide),
    (C2_preserve_scroll_edges (((NewViewport 10 2).SetContent "a\nb\nc\nd").ScrollToBottom)
      "p\nq\nr\ns\nt\nu").2 (by decide) (by decide)⟩

/-- Claim C10: when the old content fits entirely (the viewport is at the
top and at the bottom at once), SetContentPreserveScroll with content
longer than the viewport leaves the offset at 0 — top of the new content,
no longer at the bottom: the at-top rule takes precedence. -/
theorem C10_top_rule_precedence (v : Viewport) (content : String)
    (hfit : (v.TotalLines : Int) ≤ v.height) (htop : v.AtTop = true)
    (hbot : v.AtBottom = true)
    (hlong : v.height < ((stringSplitNl content).length : Int)) :
    (v.SetContentPreserveScroll content).yOffset = 0 ∧
      (v.SetContentPreserveScroll content).AtTop = true ∧
      (v.SetContentPreserveScroll content).AtBottom = false := by
  have hy : (v.SetContentPreserveScroll content).yOffset = 0 := by
    simp only [Viewport.SetContentPreserveScroll, htop, if_true]
    rw [Viewport.clampOffset_yOffset_of_nonpos _ (le_refl 0)]
  refine ⟨hy, ?_, ?_⟩
  · rw [Viewport.AtTop_iff, hy]
  · have hmax : (v.SetContentPreserveScroll content).maxOffset =
        max 0 (((stringSplitNl content).length : Int) - v.height) := by
      simp only [Viewport.SetContentPreserveScroll, htop, if_true,
        Viewport.clampOffset_maxOffset]
      rw [Viewport.maxOffset_eq_max]
      rfl
    simp only [Viewport.AtBottom, hy, ge_iff_le, hmax, decide_eq_false_iff_not]
    omega

/-- Witness for claim C10: one line of content in a 3-row viewport,
replaced by five lines, leaves the offset at the top. -/
theorem C10_top_rule_precedence_witness :
    (((NewViewport 10 3).SetContent "a").SetContentPreserveScroll
        "a\nb\nc\nd\ne").yOffset = 0 ∧
      (((NewViewport 10 3).SetContent "a").SetContentPreserveScroll
          "a\nb\nc\nd\ne").AtTop = true ∧
      (((NewViewport 10 3).SetContent "a").SetContentPreserveScroll
          "a\nb\nc\nd\ne").AtBottom = false :=
  C10_top_rule_precedence ((NewViewport 10 3).SetContent "a") "a\nb\nc\nd\ne"
    (by decide) (by decide) (by decide) (by decide)

/-! ## Shared message / command model (Bubbletea collaborator)

Messages delivered to Update and commands returned from it are modelled as
explicit inductive types; tea.Tick(d, f) becomes Cmd.tick with the message
the closure would produce, a command func returning a message becomes
Cmd.emit, and tea.Batch becomes Cmd.batch. -/

/-- Section identity with fixed ordinals 0..3 (gradientanim.go):
Home = 0, Work = 1, CV = 2, Links = 3. -/
abbrev Section := Fin 4

/-- SectionHome ordinal. -/
def SectionHome : Section := 0
/-- SectionWork ordinal. -/
def SectionWork : Section := 1
/-- SectionCV ordinal. -/
def SectionCV : Section := 2
/-- SectionLinks ordinal. -/
def SectionLinks : Section := 3

/-- Messages handled by the TUI models. -/
inductive Msg where
  | key (s : String)
  | mouseWheelUp
  | mouseWheelDown
  | mouseOther
  | windowSize (width height : Int)
  | animationTick (id : String)
  | typewriterTick (id : String)
  | shimmerTick (id : String)
  | idleCheck
  | introDone
  | transitionDone
  | typewriterDone (id : String)
  | navigate (target : Section)
  | clearCopyFeedback
  | focus
  | blur
deriving Repr, DecidableEq

/-- Commands emitted by the TUI models. -/
inductive Cmd where
  | tick (delayNs : Int) (msg : Msg)
  | emit (msg : Msg)
  | quit
  | setWindowTitle (title : String)
  | batch (cmds : List Cmd)
deriving Repr

/-- One millisecond in nanoseconds (Go time.Millisecond). -/
def timeMillisecond : Int := 1000000
/-- One second in nanoseconds (Go time.Second). -/
def timeSecond : Int := 1000 * timeMillisecond
/-- One minute in nanoseconds (Go time.Minute). -/
def timeMinute : Int := 60 * timeSecond

/-- animationTickInterval = 16ms (animation.go). -/
def animationTickInterval : Int := 16 * timeMillisecond

/-- animationTick schedules an AnimationTickMsg for the given id. -/
def animationTick (id : String) : Cmd :=
  .tick animationTickInterval (.animationTick id)

/-! ## TransitionManager (tui/internal/app/transition.go) -/

/-- transitionID identifies transition animation ticks. -/
def transitionID : String := "section-transition"
/-- baseTransitionSteps is the step count for adjacent section transitions. -/
def baseTransitionSteps : Int := 10
/-- extraStepsPerDistance adds steps per additional section distance. -/
def extraStepsPerDistance : Int := 2

/-- TransitionManager state.  The Go fields from / to are spelled fromSec /
toSec because from is reserved in Lean. -/
structure TransitionManager where
  active : Bool
  fromSec : Section
  toSec : Section
  direction : Int
  step : Int
  steps : Int
deriving Repr, DecidableEq

/-- NewTransitionManager: the Go zero value. -/
def NewTransitionManager : TransitionManager :=
  { active := false, fromSec := 0, toSec := 0, direction := 0, step := 0, steps := 0 }

namespace TransitionManager

/-- Active returns whether a transition is currently running. -/
def Active (t : TransitionManager) : Bool := t.active

/-- Start begins a transition: arms the manager, picks the step count from
the ordinal distance and the direction from the ordinal comparison, and
returns the first animation tick command. -/
def Start (t : TransitionManager) (fromS toS : Section) :
    TransitionManager × Cmd :=
  let distance : Int := (toS.val : Int) - (fromS.val : Int)
  let distance := if distance < 0 then -distance else distance
  let t := { t with
    active := true
    fromSec := fromS
    toSec := toS
    step := 0
    steps := baseTransitionSteps + (distance - 1) * extraStepsPerDistance
    direction := if (fromS.val : Int) < (toS.val : Int) then 1 else -1 }
  (t, animationTick transitionID)

/-- Update advances the transition on a matching animation tick; on the
final step it deactivates and emits TransitionDoneMsg. -/
def Update (t : TransitionManager) (msg : Msg) : TransitionManager × Option Cmd :=
  if t.active = false then (t, none)
  else
    match msg with
    | .animationTick id =>
      if id ≠ transitionID then (t, none)
      else
        let t := { t with step := t.step + 1 }
        if t.step ≥ t.steps then ({ t with active := false }, some (.emit .transitionDone))
        else (t, some (animationTick transitionID))
    | _ => (t, none)

end TransitionManager

/-! ### Claim C4: transition step count vs section distance -/

/-- Ordinal distance between two sections, as computed in Start. -/
def sectionDistance (a b : Section) : Int :=
  let d : Int := (b.val : Int) - (a.val : Int)
  if d < 0 then -d else d

/-- The total step count Start chooses for a transition between two
sections. -/
def transitionSteps (a b : Section) : Int :=
  ((NewTransitionManager).Start a b).1.steps

/-- Claim C4: for distinct section pairs the total step count is a strictly
increasing function of the ordinal distance, and adjacent pairs (distance 1)
attain the minimum step count over all distinct pairs. -/
theorem C4_steps_monotone_in_distance :
    (∀ f1 t1 f2 t2 : Section, f1 ≠ t1 → f2 ≠ t2 →
        sectionDistance f1 t1 < sectionDistance f2 t2 →
        transitionSteps f1 t1 < transitionSteps f2 t2) ∧
      (∀ f t f2 t2 : Section, sectionDistance f t = 1 → f2 ≠ t2 →
        transitionSteps f t ≤ transitionSteps f2 t2) := by
  decide

/-- Witness for claim C4 at concrete sections: Home to Work (distance 1) is
strictly shorter than Home to Links (distance 3), and CV to Links
(adjacent) is minimal against Work to Links. -/
theorem C4_steps_monotone_in_distance_witness :
    transitionSteps SectionHome SectionWork < transitionSteps SectionHome SectionLinks ∧
      transitionSteps SectionCV SectionLinks ≤ transitionSteps SectionWork SectionLinks :=
  ⟨C4_steps_monotone_in_distance.1 SectionHome SectionWork SectionHome SectionLinks
      (by decide) (by decide) (by decide),
    C4_steps_monotone_in_distance.2 SectionCV SectionLinks SectionWork SectionLinks
      (by decide) (by decide)⟩

/-! ## Typewriter (tui/internal/app/typewriter.go) -/

/-- defaultTickDuration = 50ms between typewriter ticks. -/
def defaultTickDuration : Int := 50 * timeMillisecond

/-- Typewriter state: id scopes tick messages, text is the rune slice,
pos the number of revealed runes. -/
structure Typewriter where
  id : String
  text : List Char
  pos : Int
  charsPerTick : Int
  done : Bool
deriving Repr, DecidableEq

/-- NewTypewriter clamps charsPerTick to at least 1 and is immediately done
on an empty rune slice. -/
def NewTypewriter (id text : String) (charsPerTick : Int) : Typewriter :=
  let cpt := if charsPerTick < 1 then 1 else charsPerTick
  { id := id
    text := text.data
    pos := 0
    charsPerTick := cpt
    done := text.data.length == 0 }

namespace Typewriter

/-- Tick schedules the next typewriter tick for this instance. -/
def Tick (tw : Typewriter) : Cmd :=
  .tick defaultTickDuration (.typewriterTick tw.id)

/-- Done reports whether all text has been revealed. -/
def Done (tw : Typewriter) : Bool := tw.done

/-- Update advances the revealed position on a matching tick; reaching the
full length flips done and emits the one-shot TypewriterDoneMsg instead of
scheduling another tick. -/
def Update (tw : Typewriter) (msg : Msg) : Typewriter × Option Cmd :=
  if tw.done then (tw, none)
  else
    match msg with
    | .typewriterTick tid =>
      if tid ≠ tw.id then (tw, none)
      else
        let pos := tw.pos + tw.charsPerTick
        if pos ≥ (tw.text.length : Int) then
          ({ tw with pos := (tw.text.length : Int), done := true },
            some (.emit (.typewriterDone tw.id)))
        else ({ tw with pos := pos }, some tw.Tick)
    | _ => (tw, none)

/-- View returns the revealed portion of the text. -/
def View (tw : Typewriter) : String := String.mk (tw.text.take tw.pos.toNat)

/-- Skip reveals all remaining text synchronously. -/
def Skip (tw : Typewriter) : Typewriter :=
  { tw with pos := (tw.text.length : Int), done := true }

end Typewriter

/-! ### Claim C7: typewriter completion in exactly ceil(L/k) ticks -/

/-- Iterate Update n times, each time with the tick message carrying the
instance's own id (a matching tick). -/
def typewriterTicks (tw : Typewriter) : Nat → Typewriter
  | 0 => tw
  | n+1 =>
    let t := typewriterTicks tw n
    (t.Update (.typewriterTick t.id)).1

theorem typewriterTicks_spec (id : String) (cs : List Char) (k : Nat)
    (hk : 1 ≤ k) (hL : 0 < cs.length) (n : Nat) :
    typewriterTicks
        { id := id, text := cs, pos := 0, charsPerTick := (k : Int), done := false } n =
      if n * k < cs.length then
        { id := id, text := cs, pos := ((n * k : Nat) : Int),
          charsPerTick := (k : Int), done := false }
      else
        { id := id, text := cs, pos := (cs.length : Int),
          charsPerTick := (k : Int), done := true } := by
  induction n with
  | zero =>
    rw [if_pos (by simpa using hL)]
    simp [typewriterTicks]
  | succ n ih =>
    have hnk : (n + 1) * k = n * k + k := by ring
    simp only [typewriterTicks, ih]
    by_cases h1 : n * k < cs.length
    · rw [if_pos h1]
      simp only [Typewriter.Update, Typewriter.Tick]
      simp only [Bool.false_eq_true, if_false, ne_eq, not_true_eq_false, ite_false]
      by_cases h2 : (n + 1) * k < cs.length
      · rw [if_pos h2, if_neg (by omega)]
        simp only [Typewriter.mk.injEq, and_true, true_and]
        omega
      · rw [if_neg h2, if_pos (by omega)]
    · rw [if_neg h1, if_neg (by omega)]
      rfl

theorem C7_typewriter_completion :
    (∀ (id : String) (k : Int), (NewTypewriter id "" k).Done = true) ∧
      (∀ (id text : String) (k : Nat), 1 ≤ k → 0 < text.data.length →
        (∀ n : Nat,
            (typewriterTicks (NewTypewriter id text (k : Int)) n).pos ≤
              (text.data.length : Int)) ∧
          (∀ n : Nat,
              (typewriterTicks (NewTypewriter id text (k : Int)) n).Done = true ↔
                (text.data.length + k - 1) / k ≤ n) ∧
          ((typewriterTicks (NewTypewriter id text (k : Int))
                ((text.data.length + k - 1) / k - 1)).Update
              (.typewriterTick id)).2 =
            some (.emit (.typewriterDone id))) := by
  constructor
  · intro id k
    simp [NewTypewriter, Typewriter.Done]
  · intro id text k hk hL
    have hL2 : 0 < text.length := hL
    have hnew : NewTypewriter id text (k : Int) =
        { id := id, text := text.data, pos := 0, charsPerTick := (k : Int),
          done := false } := by
      simp only [NewTypewriter]
      rw [if_neg (by omega)]
      simp only [Typewriter.mk.injEq, true_and, and_true]
      simp
      omega
    set L := text.data.length with hLdef
    have hceil : ∀ n : Nat, (L + k - 1) / k ≤ n ↔ L ≤ n * k := by
      intro n
      rw [Nat.div_le_iff_le_mul_add_pred (by omega)]
      have hcomm : k * n = n * k := Nat.mul_comm k n
      omega
    have hceil_pos : 0 < (L + k - 1) / k := by
      rw [Nat.lt_iff_add_one_le, Nat.le_div_iff_mul_le (by omega)]
      have : (0 + 1) * k = k := by ring
      omega
    refine ⟨?_, ?_, ?_⟩
    · intro n
      rw [hnew, typewriterTicks_spec id text.data k hk hL n]
      split_ifs with h
      · simp only
        push_cast
        omega
      · simp only
        omega
    · intro n
      rw [hnew, typewriterTicks_spec id text.data k hk hL n, hceil]
      split_ifs with h
      · simp only [Typewriter.Done]
        constructor
        · intro hc
          exact absurd hc (by simp)
        · intro hc
          omega
      · simp only [Typewriter.Done, true_iff]
        omega
    · set c := (L + k - 1) / k with hcdef
      obtain ⟨d, hd⟩ : ∃ d, c = d + 1 := ⟨c - 1, by omega⟩
      have hrel : (d + 1) * k = d * k + k := by ring
      have he : c - 1 = d := by omega
      have hlt : (c - 1) * k < L := by
        rw [he]
        by_contra hcon
        push_neg at hcon
        have h2 := (hceil d).mpr hcon
        omega
      have hge : L ≤ c * k := (hceil c).mp (le_refl c)
      rw [hd] at hge
      have hge2 : L ≤ d * k + k := by omega
      rw [hnew, typewriterTicks_spec id text.data k hk hL (c - 1), if_pos hlt, he]
      simp only [Typewriter.Update, Typewriter.Tick]
      simp only [Bool.false_eq_true, if_false, ne_eq, not_true_eq_false, ite_false]
      rw [if_pos (by push_cast; omega)]

/-- Witness for claim C7: text of 5 runes at 2 runes per tick finishes in
ceil(5/2) = 3 ticks, never passing position 5, and emits the done signal
on the third tick. -/
theorem C7_typewriter_completion_witness :
    ((NewTypewriter "tw" "" 1).Done = true) ∧
      ((typewriterTicks (NewTypewriter "tw" "hello" (2 : Nat)) 2).pos ≤ 5) ∧
      ((typewriterTicks (NewTypewriter "tw" "hello" (2 : Nat)) 3).Done = true ↔ 3 ≤ 3) ∧
      ((typewriterTicks (NewTypewriter "tw" "hello" (2 : Nat)) 2).Update
          (.typewriterTick "tw")).2 = some (.emit (.typewriterDone "tw")) := by
  have h := C7_typewriter_completion
  have h2 := h.2 "tw" "hello" 2 (by decide) (by decide)
  exact ⟨h.1 "tw" 1, h2.1 2, by simpa using h2.2.1 3, by simpa using h2.2.2⟩

/-! ## Shimmer lattice hash (tui/internal/app/shimmer.go) -/

/-- latticeHash returns a deterministic pseudo-random value in [-0.5, 0.5)
for an integer lattice point.  Go uint32 wrap-around arithmetic is
modelled with explicit mod 2^32; the final float64 expression
float64(h & 0x7fffffff) / float64(0x80000000) - 0.5 is exact in IEEE
double precision (a 31-bit integer divided by a power of two, minus a
multiple of the same ulp grid), so rationals model it without error. -/
def latticeHash (x y z : Int) : ℚ :=
  let h0 : Nat := ((x * 374761393 + y * 668265263 + z * 1440670441) % (2 ^ 32 : Int)).toNat
  let h1 : Nat := h0 ^^^ 0x27d4eb2d
  let h2 : Nat := ((h1 ^^^ (h1 >>> 13)) * 1274126177) % 2 ^ 32
  let h3 : Nat := h2 ^^^ (h2 >>> 16)
  ((h3 &&& 0x7fffffff : Nat) : ℚ) / (0x80000000 : ℚ) - 1 / 2

/-- Claim C8: the lattice hash is a pure function of its three integer
arguments — two evaluations at the same point agree (purity is intrinsic
to the functional embedding) — and every value lies in [-0.5, 0.5). -/
theorem C8_latticeHash_deterministic_bounded (x y z : Int) :
    latticeHash x y z = latticeHash x y z ∧
      -(1 / 2 : ℚ) ≤ latticeHash x y z ∧ latticeHash x y z < 1 / 2 := by
  refine ⟨rfl, ?_, ?_⟩ <;>
    · simp only [latticeHash]
      set m : Nat :=
        ((((((x * 374761393 + y * 668265263 + z * 1440670441) % (2 ^ 32 : Int)).toNat ^^^
          0x27d4eb2d) ^^^ ((((x * 374761393 + y * 668265263 + z * 1440670441) %
            (2 ^ 32 : Int)).toNat ^^^ 0x27d4eb2d) >>> 13)) * 1274126177 % 2 ^ 32) ^^^
          ((((((x * 374761393 + y * 668265263 + z * 1440670441) % (2 ^ 32 : Int)).toNat ^^^
            0x27d4eb2d) ^^^ ((((x * 374761393 + y * 668265263 + z * 1440670441) %
              (2 ^ 32 : Int)).toNat ^^^ 0x27d4eb2d) >>> 13)) * 1274126177 % 2 ^ 32) >>> 16))
          &&& 0x7fffffff with hm
      have hmle : m ≤ 0x7fffffff := Nat.and_le_right
      have hq0 : (0 : ℚ) ≤ (m : ℚ) := Nat.cast_nonneg m
      have hqle : (m : ℚ) ≤ 0x7fffffff := by exact_mod_cast hmle
      have h1 : (0 : ℚ) ≤ (m : ℚ) / (0x80000000 : ℚ) := by positivity
      have h2 : (m : ℚ) / (0x80000000 : ℚ) ≤ (0x7fffffff : ℚ) / (0x80000000 : ℚ) := by
        apply div_le_div_of_nonneg_right hqle
        norm_num
      · linarith

/-! ## Root model (tui/internal/app/app.go, tui/internal/app/idle.go)

The root Model is parameterized by the section state type and the section
Update function is passed explicitly, modelling the Go SectionModel
interface dispatch.  Rendering-only collaborator fields of the Go struct
(theme, content, statusBar, intro, palette internals, analytics logger and
ids) are not inspected or modified by any code path a claim quantifies
over; on the no-op paths the Go methods return the receiver unchanged,
fields included, which the functional embedding mirrors by returning the
whole model value. -/

/-- idleCheckInterval = 10s between idle checks (idle.go). -/
def idleCheckInterval : Int := 10 * timeSecond
/-- idleWarningBefore = 1 minute of warning window (idle.go). -/
def idleWarningBefore : Int := 1 * timeMinute

/-- idleCheckTick schedules the periodic idleCheckMsg. -/
def idleCheckTick : Cmd := .tick idleCheckInterval .idleCheck

/-- Navigation bar state: the highlighted section and the width. -/
structure NavBar where
  active : Section
  width : Int

/-- Root model state over section state type sigma; timestamps and
durations are nanoseconds as in Go time.Time / time.Duration. -/
structure Model (σ : Type) where
  activeSection : Section
  sections : Section → σ
  navBar : NavBar
  showIntro : Bool
  transition : TransitionManager
  showPalette : Bool
  width : Int
  height : Int
  showHelp : Bool
  idleTimeout : Int
  lastActivity : Int
  showIdleWarning : Bool
  idleRemaining : Int
  sectionStart : Int

namespace Model

/-- navigateTo switches to the target section: no-op when the target is
already active or a transition is running; otherwise logs the section view
(updating sectionStart to the current time), blurs the current section,
starts the transition, switches the active section and navbar highlight,
and batches the collected commands.  upd is the section Update dispatch
and now the current wall-clock time. -/
def navigateTo {σ : Type} (m : Model σ) (upd : σ → Msg → σ × Option Cmd)
    (now : Int) (target : Section) : Model σ × Option Cmd :=
  if target = m.activeSection then (m, none)
  else if m.transition.Active then (m, none)
  else
    let m := { m with sectionStart := now }
    let p := upd (m.sections m.activeSection) .blur
    let m := { m with sections := Function.update m.sections m.activeSection p.1 }
    let cmds : List Cmd :=
      match p.2 with
      | some c => [c]
      | none => []
    let q := m.transition.Start m.activeSection target
    let m := { m with transition := q.1 }
    let cmds := cmds ++ [q.2]
    let m := { m with
      activeSection := target
      navBar := { m.navBar with active := target } }
    (m, some (.batch cmds))

/-- handleIdleCheck: disabled when the timeout is not positive; quits at or
past the timeout; raises the warning with the remaining time inside the
warning window; always re-arms the periodic check otherwise. -/
def handleIdleCheck {σ : Type} (m : Model σ) (now : Int) :
    Model σ × Option Cmd :=
  if m.idleTimeout ≤ 0 then (m, none)
  else
    let elapsed := now - m.lastActivity
    if elapsed ≥ m.idleTimeout then (m, some .quit)
    else
      let remaining := m.idleTimeout - elapsed
      let m :=
        if remaining ≤ idleWarningBefore then
          { m with showIdleWarning := true, idleRemaining := remaining }
        else m
      (m, some idleCheckTick)

/-- InitCmds: the commands Init batches — the window title, the intro
init when the intro is showing (else the active section init), and the
periodic idle check only when a positive idle timeout is configured.
Possibly-nil Go commands are Options, as tea.Batch drops nils. -/
def InitCmds {σ : Type} (m : Model σ) (title : String)
    (introInitCmd : Option Cmd) (secInitCmd : σ → Option Cmd) :
    List (Option Cmd) :=
  [some (.setWindowTitle title)] ++
    [if m.showIntro then introInitCmd else secInitCmd (m.sections m.activeSection)] ++
    (if m.idleTimeout > 0 then [some idleCheckTick] else [])

end Model

/-! ### Claim C3: navigation no-op cases -/

/-- Claim C3: navigating to the already-active section, or navigating
while a transition is active, returns the model with every field
unchanged and no command. -/
theorem C3_navigate_noop {σ : Type} (m : Model σ)
    (upd : σ → Msg → σ × Option Cmd) (now : Int) (target : Section)
    (h : target = m.activeSection ∨ m.transition.Active = true) :
    m.navigateTo upd now target = (m, none) := by
  by_cases h1 : target = m.activeSection
  · simp [Model.navigateTo, h1]
  · have h2 : m.transition.Active = true := h.resolve_left h1
    simp [Model.navigateTo, h1, h2]

/-- A concrete root model used to witness the navigation no-op claim. -/
def navDemoModel : Model Unit where
  activeSection := SectionHome
  sections := fun _ => ()
  navBar := { active := SectionHome, width := 80 }
  showIntro := false
  transition := NewTransitionManager
  showPalette := false
  width := 80
  height := 24
  showHelp := false
  idleTimeout := 0
  lastActivity := 0
  showIdleWarning := false
  idleRemaining := 0
  sectionStart := 0

/-- Witness for claim C3 at a concrete model: navigating to the section
that is already active changes nothing and returns no command. -/
theorem C3_navigate_noop_witness :
    navDemoModel.navigateTo (fun s _ => (s, none)) 7 SectionHome =
      (navDemoModel, none) :=
  C3_navigate_noop navDemoModel (fun s _ => (s, none)) 7 SectionHome (Or.inl rfl)

/-! ### Claim C6: idle timeout behaviour -/

/-- Claim C6: with a positive timeout T, an idle check quits exactly when
the elapsed idle time reaches T; inside the warning window it raises the
on-screen warning carrying the remaining time; with timeout zero the
subsystem is disabled — the check is a strict no-op and Init schedules no
periodic idle check (provided the intro/section init commands are not
themselves the idle check, as in the real program). -/
theorem C6_idle_timeout {σ : Type} (m : Model σ) (now : Int) :
    (0 < m.idleTimeout →
        ((m.handleIdleCheck now).2 = some .quit ↔
          m.idleTimeout ≤ now - m.lastActivity)) ∧
      (0 < m.idleTimeout → now - m.lastActivity < m.idleTimeout →
        m.idleTimeout - (now - m.lastActivity) ≤ idleWarningBefore →
        (m.handleIdleCheck now).1.showIdleWarning = true ∧
          (m.handleIdleCheck now).1.idleRemaining =
            m.idleTimeout - (now - m.lastActivity)) ∧
      (m.idleTimeout = 0 → m.handleIdleCheck now = (m, none)) ∧
      (∀ (title : String) (introInitCmd : Option Cmd)
          (secInitCmd : σ → Option Cmd), m.idleTimeout = 0 →
        introInitCmd ≠ some idleCheckTick →
        (∀ s, secInitCmd s ≠ some idleCheckTick) →
        some idleCheckTick ∉ m.InitCmds title introInitCmd secInitCmd) := by
  refine ⟨?_, ?_, ?_, ?_⟩
  · intro hpos
    simp only [Model.handleIdleCheck]
    rw [if_neg (by omega)]
    constructor
    · intro hq
      by_contra hlt
      rw [if_neg (by omega)] at hq
      split_ifs at hq <;> simp [idleCheckTick] at hq
    · intro hge
      rw [if_pos (by omega)]
  · intro hpos hlt hwin
    simp only [Model.handleIdleCheck]
    rw [if_neg (by omega), if_neg (by omega), if_pos (by omega)]
    exact ⟨rfl, rfl⟩
  · intro hz
    simp only [Model.handleIdleCheck]
    rw [if_pos (by omega)]
  · intro title introInitCmd secInitCmd hz hintro hsec
    intro hmem
    simp only [Model.InitCmds] at hmem
    rw [hz] at hmem
    simp only [gt_iff_lt, lt_self_iff_false, if_false, List.append_nil,
      List.mem_append, List.mem_singleton] at hmem
    rcases hmem with h1 | h2
    · simp [idleCheckTick] at h1
    · cases h3 : m.showIntro
      · rw [h3] at h2
        simp only [Bool.false_eq_true, if_false] at h2
        exact hsec _ h2.symm
      · rw [h3] at h2
        simp only [if_true] at h2
        exact hintro h2.symm

/-- A concrete root model with a 5-minute idle timeout, used to witness
the idle claim. -/
def idleDemoModel : Model Unit where
  activeSection := SectionHome
  sections := fun _ => ()
  navBar := { active := SectionHome, width := 80 }
  showIntro := true
  transition := NewTransitionManager
  showPalette := false
  width := 80
  height := 24
  showHelp := false
  idleTimeout := 5 * timeMinute
  lastActivity := 0
  showIdleWarning := false
  idleRemaining := 0
  sectionStart := 0

/-- The same concrete model with idle tracking disabled. -/
def idleDemoModelZero : Model Unit :=
  { idleDemoModel with idleTimeout := 0 }

/-- Witness for claim C6 at concrete values: a 5-minute timeout with
4m30s elapsed raises the warning with 30s remaining; with 6 minutes
elapsed the check quits; with timeout zero Init schedules no idle check
and the check is a no-op. -/
theorem C6_idle_timeout_witness :
    (idleDemoModel.handleIdleCheck (270 * timeSecond)).1.showIdleWarning = true ∧
      (idleDemoModel.handleIdleCheck (270 * timeSecond)).1.idleRemaining =
        30 * timeSecond ∧
      (idleDemoModel.handleIdleCheck (360 * timeSecond)).2 = some .quit ∧
      idleDemoModelZero.handleIdleCheck 0 = (idleDemoModelZero, none) ∧
      some idleCheckTick ∉ idleDemoModelZero.InitCmds "t" none (fun _ => none) := by
  have hwarm := (C6_idle_timeout idleDemoModel (270 * timeSecond)).2.1
    (by decide) (by decide) (by decide)
  have hquit := ((C6_idle_timeout idleDemoModel (360 * timeSecond)).1
    (by decide)).mpr (by decide)
  have hnoop := (C6_idle_timeout idleDemoModelZero 0).2.2.1 rfl
  have hinit := (C6_idle_timeout idleDemoModelZero 0).2.2.2 "t" none
    (fun _ => none) rfl (by simp) (fun s => by simp)
  refine ⟨hwarm.1, ?_, hquit, hnoop, hinit⟩
  rw [hwarm.2]
  decide

/-! ## Transition view rendering (tui/internal/app/transition.go)

The transition slides plain pre-rendered section frames.  The lipgloss
collaborator calls Width(w).MaxWidth(w).Render are modelled as
truncate-then-pad on display columns, with one character = one column:
ANSI sequences and double-width glyphs are the library's concern and the
modelled inputs are plain text.  Go float64 arithmetic (progress, easing,
offsets) is modelled exactly by rationals in an unreduced
numerator/denominator representation (Frac) that the kernel can evaluate;
every float64 quantity in this code path stays well inside the range
where the modelled operations and the IEEE ones pick the same branch at
the final int conversion for the concrete inputs considered. -/

/-- Unreduced rational: numerator and denominator, denominator kept
positive by construction in this code path.  Stands in for Go float64. -/
structure Frac where
  num : Int
  den : Int
deriving Repr, DecidableEq

/-- Embed an integer. -/
def Frac.ofInt (n : Int) : Frac := ⟨n, 1⟩

/-- Addition of fractions. -/
def Frac.add (a b : Frac) : Frac := ⟨a.num * b.den + b.num * a.den, a.den * b.den⟩

/-- Subtraction of fractions. -/
def Frac.sub (a b : Frac) : Frac := ⟨a.num * b.den - b.num * a.den, a.den * b.den⟩

/-- Multiplication of fractions. -/
def Frac.mul (a b : Frac) : Frac := ⟨a.num * b.num, a.den * b.den⟩

/-- Division of fractions (used only with positive divisors here). -/
def Frac.div (a b : Frac) : Frac := ⟨a.num * b.den, a.den * b.num⟩

/-- Strict comparison, valid for positive denominators. -/
def Frac.blt (a b : Frac) : Bool := a.num * b.den < b.num * a.den

/-- Truncation toward zero, the Go int(x) conversion. -/
def Frac.trunc (a : Frac) : Int := a.num.tdiv a.den

/-- easeInOut applies a smooth cubic ease-in-out curve (animation.go). -/
def easeInOut (t : Frac) : Frac :=
  if t.blt ⟨1, 2⟩ then (Frac.ofInt 4).mul (t.mul (t.mul t))
  else
    let u := ((Frac.ofInt (-2)).mul t).add (Frac.ofInt 2)
    (Frac.ofInt 1).sub ((u.mul (u.mul u)).div (Frac.ofInt 2))

/-- A run of n spaces (Go strings.Repeat(" ", n)). -/
def spaces (n : Nat) : String := String.mk (List.replicate n ' ')

/-- Models lipgloss NewStyle().Width(w).MaxWidth(w).Render on plain text:
truncate to w columns, then pad with spaces to exactly w columns. -/
def padTruncate (w : Nat) (s : String) : String :=
  let t := s.data.take w
  String.mk (t ++ List.replicate (w - t.length) ' ')

/-- shiftLine shifts a line by offset visual columns in the given
direction, clamping the output to width columns; non-positive offset or
width returns the line unchanged (transition.go). -/
def shiftLine (line : String) (offset direction width : Int) : String :=
  if offset ≤ 0 ∨ width ≤ 0 then line
  else if direction > 0 then
    padTruncate width.toNat (spaces offset.toNat ++ line)
  else
    let remaining := width - offset
    if remaining ≤ 0 then spaces width.toNat
    else padTruncate remaining.toNat line ++ spaces offset.toNat

/-- One output line of the transition view: the staggered crossover
between the shifted outgoing and the shifted incoming line. -/
def transitionLine (fromLine toLine : String) (eased switchPoint : Frac)
    (fromOffset toOffset direction width : Int) : String :=
  if eased.blt switchPoint then shiftLine fromLine fromOffset direction width
  else shiftLine toLine toOffset (-direction) width

/-- The list of lines the transition view renders: both views slide
simultaneously and each line crosses from outgoing to incoming content at
a staggered progress threshold based on its vertical position. -/
def TransitionManager.viewLines (t : TransitionManager)
    (fromView toView : String) (width : Int) : List String :=
  let progress : Frac := (Frac.ofInt t.step).div (Frac.ofInt t.steps)
  let eased := easeInOut progress
  let maxSlide := width.tdiv 5
  let maxSlide := if maxSlide < 2 then 2 else maxSlide
  let fromOffset := (eased.mul (Frac.ofInt maxSlide)).trunc
  let toOffset := (((Frac.ofInt 1).sub eased).mul (Frac.ofInt maxSlide)).trunc
  let fromLines := stringSplitNl fromView
  let toLines := stringSplitNl toView
  let maxLines := max fromLines.length toLines.length
  (List.range maxLines).map fun i =>
    let fromLine := fromLines.getD i ""
    let toLine := toLines.getD i ""
    let lineRatio : Frac := (Frac.ofInt i).div (Frac.ofInt (max (maxLines - 1) 1 : Nat))
    let switchPoint : Frac := (Frac.mk 35 100).add (lineRatio.mul (Frac.mk 30 100))
    transitionLine fromLine toLine eased switchPoint fromOffset toOffset
      t.direction width

/-- View renders the mid-transition frame; very small terminals fall back
to the incoming view unchanged. -/
def TransitionManager.View (t : TransitionManager)
    (fromView toView : String) (width : Int) : String :=
  if width < 20 ∨ t.steps ≤ 0 then toView
  else String.intercalate "\n" (t.viewLines fromView toView width)

/-! ### Claim C9: width clamping of transition lines -/

theorem padTruncate_length (w : Nat) (s : String) :
    (padTruncate w s).data.length = w := by
  simp only [padTruncate]
  have := List.length_take w s.data
  simp only [List.length_append, List.length_replicate]
  omega

/-- Every shiftLine output is either exactly width columns or the
unmodified input line. -/
theorem shiftLine_spec (line : String) (offset direction width : Int) :
    (shiftLine line offset direction width).data.length = width.toNat ∨
      shiftLine line offset direction width = line := by
  simp only [shiftLine]
  split_ifs with h1 h2 h3
  · exact Or.inr rfl
  · exact Or.inl (padTruncate_length _ _)
  · left
    simp only [spaces, List.length_replicate]
  · left
    push_neg at h1
    rw [String.data_append]
    simp only [List.length_append, padTruncate_length, spaces,
      List.length_replicate]
    omega

theorem transitionLine_spec (fromLine toLine : String)
    (eased switchPoint : Frac) (fromOffset toOffset direction width : Int) :
    (transitionLine fromLine toLine eased switchPoint fromOffset toOffset
        direction width).data.length = width.toNat ∨
      transitionLine fromLine toLine eased switchPoint fromOffset toOffset
          direction width = fromLine ∨
      transitionLine fromLine toLine eased switchPoint fromOffset toOffset
          direction width = toLine := by
  simp only [transitionLine]
  split_ifs
  · rcases shiftLine_spec fromLine fromOffset direction width with h | h
    · exact Or.inl h
    · exact Or.inr (Or.inl h)
  · rcases shiftLine_spec toLine toOffset (-direction) width with h | h
    · exact Or.inl h
    · exact Or.inr (Or.inr h)

/-- Counterexample to claim C9 as stated: at step 0 of a transition (width
30) the outgoing line "hi" is rendered verbatim with display width 2, not
clamped/padded to the 30-column target width. -/
theorem C9_counterexample :
    TransitionManager.View
        { active := true, fromSec := SectionHome, toSec := SectionWork,
          direction := 1, step := 0, steps := 10 } "hi" "yo" 30 = "hi" ∧
      ("hi" : String).data.length ≠ 30 := by
  constructor
  · decide
  · decide

/-- Claim C9, amended: every line of the transition view is either
clamped/padded to exactly the target width in display columns, or — when
its computed shift offset is not positive, as at the first and final
animation steps — one of the unmodified source lines of the outgoing or
incoming view (or the empty filler line standing in for a missing line);
not splitting styling sequences and wide glyphs is delegated to the
width-aware text library. -/
theorem C9_transition_line_width (t : TransitionManager)
    (fromView toView : String) (width : Int) (line : String)
    (hmem : line ∈ t.viewLines fromView toView width) :
    line.data.length = width.toNat ∨ line ∈ stringSplitNl fromView ∨
      line ∈ stringSplitNl toView ∨ line = "" := by
  simp only [TransitionManager.viewLines, List.mem_map] at hmem
  obtain ⟨i, -, rfl⟩ := hmem
  have hget : ∀ (ls : List String) (j : Nat),
      ls.getD j "" ∈ ls ∨ ls.getD j "" = "" := by
    intro ls j
    by_cases hj : j < ls.length
    · left
      rw [List.getD_eq_getElem ls "" hj]
      exact ls.getElem_mem hj
    · right
      exact List.getD_eq_default ls "" (by omega)
  rcases transitionLine_spec ((stringSplitNl fromView).getD i "")
      ((stringSplitNl toView).getD i "") _ _ _ _ t.direction width with
    h | h | h
  · exact Or.inl h
  · rw [h]
    rcases hget (stringSplitNl fromView) i with h2 | h2
    · exact Or.inr (Or.inl h2)
    · exact Or.inr (Or.inr (Or.inr h2))
  · rw [h]
    rcases hget (stringSplitNl toView) i with h2 | h2
    · exact Or.inr (Or.inr (Or.inl h2))
    · exact Or.inr (Or.inr (Or.inr h2))

/-- Witness for the amended claim C9: at mid-transition (step 5 of 10,
width 20) the rendered line carrying the incoming view "yo" is padded to
exactly 20 columns. -/
theorem C9_transition_line_width_witness :
    ("yo                  " : String).data.length = (20 : Int).toNat ∨
      ("yo                  " : String) ∈ stringSplitNl "hi" ∨
      ("yo                  " : String) ∈ stringSplitNl "yo" ∨
      ("yo                  " : String) = "" :=
  C9_transition_line_width
    { active := true, fromSec := SectionHome, toSec := SectionWork,
      direction := 1, step := 5, steps := 10 } "hi" "yo" 20
    "yo                  " (by decide)

/-! ## Styled text and lipgloss collaborator model

lipgloss styles wrap text in fixed prefix/suffix escape strings; widths
and truncation are ANSI-aware and count one column per visible character
(double-width glyphs are the library's concern).  The scanner states are
0 = normal, 1 = just after ESC, 2 = inside a CSI sequence, 3 = inside an
OSC sequence terminated by BEL. -/

/-- The ESC byte. -/
def escChar : Char := '\x1b'
/-- The BEL byte that terminates OSC sequences. -/
def belChar : Char := '\x07'

/-- A lipgloss text style: rendering wraps the text in the prefix and
suffix escape strings of the style (empty for a plain/no-color profile). -/
structure Style where
  pre : String
  post : String
deriving Repr, DecidableEq

/-- Style.Render wraps text in the style's escape strings. -/
def Style.render (st : Style) (text : String) : String :=
  st.pre ++ text ++ st.post

/-- Theme: the styles the links section and the viewport scrollbar use
(accent, body, muted, and the border color used for the track). -/
structure Theme where
  accent : Style
  body : Style
  muted : Style
  border : Style
deriving Repr, DecidableEq

/-- One step of the ANSI-aware width scanner. -/
def widthStep : (Nat × Nat) → Char → (Nat × Nat)
  | (0, n), c => if c = escChar then (1, n) else (0, n + 1)
  | (1, n), c => if c = '[' then (2, n) else if c = ']' then (3, n) else (0, n)
  | (2, n), c => if '@' ≤ c ∧ c ≤ '~' then (0, n) else (2, n)
  | (3, n), c => if c = belChar then (0, n) else (3, n)
  | (s, n), _ => (s, n)

/-- lipgloss.Width: display columns of a string, skipping escape
sequences, one column per visible character. -/
def visualWidth (s : String) : Nat := (s.data.foldl widthStep (0, 0)).2

/-- One step of the ANSI-aware truncation scanner: escape sequences are
always kept, visible characters only while fewer than w columns are
emitted. -/
def truncStep (w : Nat) : (Nat × Nat × List Char) → Char → (Nat × Nat × List Char)
  | (0, n, out), c =>
    if c = escChar then (1, n, c :: out)
    else if n < w then (0, n + 1, c :: out)
    else (0, n, out)
  | (1, n, out), c =>
    ((if c = '[' then 2 else if c = ']' then 3 else 0), n, c :: out)
  | (2, n, out), c => ((if '@' ≤ c ∧ c ≤ '~' then 0 else 2), n, c :: out)
  | (3, n, out), c => ((if c = belChar then 0 else 3), n, c :: out)
  | (s, n, out), _ => (s, n, out)

/-- lipgloss NewStyle().Width(w).MaxWidth(w).Render: ANSI-aware truncate
to w columns, then pad with spaces to w columns. -/
def lipglossWidthMax (w : Nat) (s : String) : String :=
  let r := s.data.foldl (truncStep w) (0, 0, [])
  String.mk r.2.2.reverse ++ spaces (w - r.2.1)

/-- lipgloss.PlaceHorizontal(w, Center, s): pad with spaces on both sides
to w columns (no-op when already at least w columns wide). -/
def lipglossPlaceHCenter (w : Int) (s : String) : String :=
  let sw := (visualWidth s : Int)
  if sw ≥ w then s
  else
    let total := w - sw
    let left := total.tdiv 2
    spaces left.toNat ++ s ++ spaces (total - left).toNat

/-! ## Text utilities (tui/internal/app/borders.go, hyperlink.go) -/

/-- Countdown loop of TruncateWithEllipsis: candidate prefixes of
decreasing length with an appended ellipsis. -/
def truncEllipsisAux (runes : List Char) (maxWidth : Int) : Nat → String
  | 0 => "..."
  | j + 1 =>
    let candidate := String.mk (runes.take j) ++ "..."
    if (visualWidth candidate : Int) ≤ maxWidth then candidate
    else truncEllipsisAux runes maxWidth j

/-- TruncateWithEllipsis truncates to maxWidth visual columns with an
appended "..." when truncation happens (borders.go). -/
def TruncateWithEllipsis (s : String) (maxWidth : Int) : String :=
  if maxWidth ≤ 3 ∨ (visualWidth s : Int) ≤ maxWidth then s
  else truncEllipsisAux s.data maxWidth s.data.length

/-- padRight pads with trailing spaces to the desired visual width. -/
def padRight (s : String) (width : Int) : String :=
  let sLen := (visualWidth s : Int)
  if sLen ≥ width then s
  else s ++ spaces (width - sLen).toNat

/-- PadLinesToWidth pads every line of content to targetWidth columns. -/
def PadLinesToWidth (content : String) (targetWidth : Int) : String :=
  String.intercalate "\n" ((stringSplitNl content).map (fun l => padRight l targetWidth))

/-- sanitizeOSCParam strips ESC, BEL, CR and LF so an embedded string
cannot break out of an OSC escape sequence (hyperlink.go). -/
def sanitizeOSCParam (s : String) : String :=
  String.mk (s.data.filter fun c =>
    ¬(c = escChar ∨ c = belChar ∨ c = '\n' ∨ c = '\r'))

/-- RenderHyperlink wraps displayText in an OSC 8 hyperlink escape
sequence around the sanitized url. -/
def RenderHyperlink (url displayText : String) : String :=
  "\x1b]8;;" ++ sanitizeOSCParam url ++ "\x07" ++ displayText ++ "\x1b]8;;" ++ "\x07"

/-- UTF-8 encoding of one code point, as Go []byte(string) produces. -/
def utf8EncodeChar (c : Char) : List Nat :=
  let n := c.toNat
  if n < 0x80 then [n]
  else if n < 0x800 then [0xC0 + n / 64, 0x80 + n % 64]
  else if n < 0x10000 then
    [0xE0 + n / 4096, 0x80 + n / 64 % 64, 0x80 + n % 64]
  else
    [0xF0 + n / 262144, 0x80 + n / 4096 % 64, 0x80 + n / 64 % 64, 0x80 + n % 64]

/-- The UTF-8 bytes of a string (Go []byte(s)). -/
def utf8Bytes (s : String) : List Nat := s.data.flatMap utf8EncodeChar

/-- The standard base64 alphabet (Go encoding/base64 StdEncoding). -/
def base64Alphabet : List Char :=
  "ABCDEFGHIJKLMNOPQRSTUVWXYZabcdefghijklmnopqrstuvwxyz0123456789+/".data

/-- One alphabet character for a 6-bit group. -/
def base64Char (n : Nat) : Char := base64Alphabet.getD (n % 64) 'A'

/-- Standard base64 of a byte list, with '=' padding. -/
def base64Chunks : List Nat → List Char
  | [] => []
  | [b0] => [base64Char (b0 / 4), base64Char (b0 % 4 * 16), '=', '=']
  | [b0, b1] =>
    [base64Char (b0 / 4), base64Char (b0 % 4 * 16 + b1 / 16),
      base64Char (b1 % 16 * 4), '=']
  | b0 :: b1 :: b2 :: rest =>
    base64Char (b0 / 4) :: base64Char (b0 % 4 * 16 + b1 / 16) ::
      base64Char (b1 % 16 * 4 + b2 / 64) :: base64Char (b2 % 64) ::
        base64Chunks rest

/-- Go base64.StdEncoding.EncodeToString([]byte(s)). -/
def base64Encode (s : String) : String := String.mk (base64Chunks (utf8Bytes s))

/-- OSC52Sequence returns the OSC 52 escape sequence that writes text to
the system clipboard, payload base64-encoded (hyperlink.go). -/
def OSC52Sequence (text : String) : String :=
  "\x1b]52;c;" ++ base64Encode text ++ "\x07"

/-! ## Viewport rendering (tui/internal/app/viewport.go, continued) -/

/-- Track character of the scroll indicator. -/
def scrollTrackChar : String := "░"
/-- Thumb character of the scroll indicator. -/
def scrollThumbChar : String := "█"
/-- Arrow shown when more content exists above. -/
def scrollUpArrow : String := "▲"
/-- Arrow shown when more content exists below. -/
def scrollDownArrow : String := "▼"
/-- MaxContentWidth caps section content width on wide terminals. -/
def MaxContentWidth : Int := 88

/-- ContentWidth: usable width for section content — one column for the
scrollbar, capped at MaxContentWidth, floored at 0. -/
def Viewport.ContentWidth (v : Viewport) : Int :=
  let w := v.width - 1
  let w := if w > MaxContentWidth then MaxContentWidth else w
  if w < 0 then 0 else w

/-- visibleSlice: the window of lines [yOffset, yOffset+height) currently
visible (the reachable states index with a non-negative offset, as the Go
slice expression does). -/
def Viewport.visibleSlice (v : Viewport) : List String :=
  if v.lines.length = 0 then []
  else
    let start := v.yOffset
    let stop := start + v.height
    let stop := if stop > (v.lines.length : Int) then (v.lines.length : Int) else stop
    if start ≥ stop then []
    else (v.lines.drop start.toNat).take (stop - start).toNat

/-- scrollbarMetrics: thumb height proportional to visible/total (minimum
1) and thumb position proportional to the scroll offset. -/
def Viewport.scrollbarMetrics (v : Viewport) : Int × Int :=
  let totalLines := (v.lines.length : Int)
  let visibleHeight := v.height
  if totalLines ≤ visibleHeight ∨ visibleHeight ≤ 0 then (visibleHeight, 0)
  else
    let thumbHeight := (visibleHeight * visibleHeight).tdiv totalLines
    let thumbHeight := if thumbHeight < 1 then 1 else thumbHeight
    let maxOff := v.maxOffset
    let yOff := if v.yOffset > maxOff then maxOff else v.yOffset
    let yOff := if yOff < 0 then 0 else yOff
    let trackSpace := visibleHeight - thumbHeight
    let thumbStart :=
      if maxOff > 0 ∧ trackSpace > 0 then (yOff * trackSpace).tdiv maxOff else 0
    (thumbHeight, thumbStart)

/-- viewCentered: content centered vertically and horizontally when all of
it fits in the viewport. -/
def Viewport.viewCentered (v : Viewport) : String :=
  if v.height ≤ 0 then ""
  else
    let visible := v.visibleSlice
    let totalLines := (visible.length : Int)
    let fullWidth := v.width
    let topPad := (v.height - totalLines).tdiv 2
    let topPad := if topPad < 0 then 0 else topPad
    String.intercalate "\n" ((List.range v.height.toNat).map fun i =>
      let contentIdx := (i : Int) - topPad
      let line :=
        if 0 ≤ contentIdx ∧ contentIdx < totalLines then
          visible.getD contentIdx.toNat ""
        else ""
      lipglossPlaceHCenter fullWidth line)

/-- ViewWithScrollbar: the visible window with a right-edge scrollbar
column; content that fits is rendered centered without a scrollbar. -/
def Viewport.ViewWithScrollbar (v : Viewport) (theme : Theme) : String :=
  let totalLines := (v.lines.length : Int)
  let visibleHeight := v.height
  if totalLines ≤ visibleHeight then v.viewCentered
  else
    let tm := v.scrollbarMetrics
    let thumbHeight := tm.1
    let thumbStart := tm.2
    let indicator := (List.range visibleHeight.toNat).map fun i =>
      if thumbStart ≤ (i : Int) ∧ (i : Int) < thumbStart + thumbHeight then
        theme.muted.render scrollThumbChar
      else theme.border.render scrollTrackChar
    let indicator :=
      if v.AtTop = false ∧ (0 < thumbStart ∨ 0 ≥ thumbStart + thumbHeight) then
        indicator.set 0 (theme.accent.render scrollUpArrow)
      else indicator
    let indicator :=
      if v.AtBottom = false ∧
          (visibleHeight - 1 < thumbStart ∨ visibleHeight - 1 ≥ thumbStart + thumbHeight) then
        indicator.set (visibleHeight.toNat - 1) (theme.accent.render scrollDownArrow)
      else indicator
    let visible := v.visibleSlice
    let visible := visible ++ List.replicate (visibleHeight.toNat - visible.length) ""
    let visible := visible.take visibleHeight.toNat
    let contentWidth := if v.width - 1 < 0 then 0 else v.width - 1
    String.intercalate "\n" ((List.range visibleHeight.toNat).map fun i =>
      let line := visible.getD i ""
      let centered := lipglossPlaceHCenter contentWidth line
      let rendered := lipglossWidthMax contentWidth.toNat centered
      rendered ++ indicator.getD i "")

/-! ## Links section (tui/internal/app/sections/links.go) -/

/-- One links entry of the content tree: label, display text, url. -/
structure Link where
  label : String
  text : String
  url : String
deriving Repr, DecidableEq

/-- The Links part of the loaded content tree. -/
structure LinksData where
  links : List Link
deriving Repr, DecidableEq

/-- LinksSection state; content is an optional pointer in Go. -/
structure LinksSection where
  content : Option LinksData
  theme : Theme
  viewport : Viewport
  width : Int
  height : Int
  cursor : Int
  focused : Bool
  copyFeedback : String
  pendingClipboard : String
deriving Repr, DecidableEq

/-- NewLinksSection: fresh section with a zero-size viewport. -/
def NewLinksSection (c : Option LinksData) (theme : Theme) : LinksSection :=
  { content := c, theme := theme, viewport := NewViewport 0 0, width := 0,
    height := 0, cursor := 0, focused := false, copyFeedback := "",
    pendingClipboard := "" }

/-- linesPerLink: rendered lines per entry (label line + separator). -/
def linesPerLink : Int := 2
/-- topPadLines: lines consumed by the top padding. -/
def topPadLines : Int := 1

/-- The zero Link value, standing in for the Go runtime bound check at an
index the callers guard to be in range. -/
def zeroLink : Link := { label := "", text := "", url := "" }

/-- renderContent builds the rendered links list: top padding, one line
per link (selection prefix + label + hyperlinked display text) with blank
separators, padded to the content width. -/
def LinksSection.renderContent (l : LinksSection) : String :=
  match l.content with
  | none => l.theme.muted.render "No links loaded."
  | some c =>
    if c.links.length = 0 then l.theme.muted.render "No links to display."
    else
      let maxTextWidth := l.viewport.ContentWidth - 2
      let maxTextWidth := if maxTextWidth < 0 then 0 else maxTextWidth
      let pieces := (List.range c.links.length).map fun i =>
        let link := c.links.getD i zeroLink
        let selected := (i : Int) = l.cursor
        let label := link.label
        let label :=
          if maxTextWidth > 0 ∧ (visualWidth label : Int) > maxTextWidth then
            TruncateWithEllipsis label maxTextWidth
          else label
        let head :=
          if selected then
            l.theme.accent.render "> " ++ l.theme.accent.render label
          else "  " ++ l.theme.body.render label
        let displayText := if link.text = "" then link.url else link.text
        let displayText :=
          if maxTextWidth > 0 then TruncateWithEllipsis displayText maxTextWidth
          else displayText
        head ++ "  " ++ RenderHyperlink link.url (l.theme.muted.render displayText)
      PadLinesToWidth ("\n" ++ String.intercalate "\n\n" pieces)
        l.viewport.ContentWidth

/-- moveCursor moves the selection by delta, clamps to [0, count-1],
re-renders, and scrolls the viewport so the selection stays visible. -/
def LinksSection.moveCursor (l : LinksSection) (delta : Int) : LinksSection :=
  match l.content with
  | none => l
  | some c =>
    if c.links.length = 0 then l
    else
      let count := (c.links.length : Int)
      let cursor := l.cursor + delta
      let cursor := if cursor < 0 then 0 else cursor
      let cursor := if cursor ≥ count then count - 1 else cursor
      let l := { l with cursor := cursor }
      let l := { l with viewport := l.viewport.SetContent l.renderContent }
      let targetLine := topPadLines + l.cursor * linesPerLink
      let totalLines := (l.viewport.TotalLines : Int)
      let visibleLines := l.viewport.height
      if visibleLines > 0 ∧ totalLines > visibleLines then
        let l := { l with viewport := l.viewport.ScrollToTop }
        if targetLine > 0 then
          { l with viewport := l.viewport.ScrollDown targetLine }
        else l
      else l

/-- Update: clears the pending clipboard first (so the OSC 52 sequence is
emitted exactly once), then dispatches on the message as links.go does. -/
def LinksSection.Update (l : LinksSection) (msg : Msg) :
    LinksSection × Option Cmd :=
  let l := { l with pendingClipboard := "" }
  match msg with
  | .windowSize w h =>
    let l := { l with width := w, height := h }
    let l := { l with viewport := l.viewport.SetSize w h }
    ({ l with viewport := l.viewport.SetContentPreserveScroll l.renderContent },
      none)
  | .key s =>
    if l.focused = false then (l, none)
    else if s = "j" ∨ s = "down" then (l.moveCursor 1, none)
    else if s = "k" ∨ s = "up" then (l.moveCursor (-1), none)
    else if s = "g" ∨ s = "home" then
      let l := { l with cursor := 0 }
      let l := { l with viewport := l.viewport.SetContent l.renderContent }
      ({ l with viewport := l.viewport.ScrollToTop }, none)
    else if s = "G" ∨ s = "end" then
      let l :=
        match l.content with
        | some c =>
          if c.links.length > 0 then
            { l with cursor := (c.links.length : Int) - 1 }
          else l
        | none => l
      let l := { l with viewport := l.viewport.SetContent l.renderContent }
      ({ l with viewport := l.viewport.ScrollToBottom }, none)
    else if s = "enter" then
      match l.content with
      | some c =>
        if l.cursor < (c.links.length : Int) then
          let url := (c.links.getD l.cursor.toNat zeroLink).url
          if url = "" then (l, none)
          else
            let l := { l with
              pendingClipboard := OSC52Sequence url
              copyFeedback := "Copied!" }
            let l := { l with viewport := l.viewport.SetContent l.renderContent }
            (l, some (.tick (2 * timeSecond) .clearCopyFeedback))
        else (l, none)
      | none => (l, none)
    else if s = "pgup" then
      ({ l with viewport := l.viewport.ScrollUp l.viewport.height }, none)
    else if s = "pgdown" then
      ({ l with viewport := l.viewport.ScrollDown l.viewport.height }, none)
    else if s = "ctrl+u" then
      ({ l with viewport := l.viewport.ScrollUp (l.viewport.height.tdiv 2) }, none)
    else if s = "ctrl+d" then
      ({ l with viewport := l.viewport.ScrollDown (l.viewport.height.tdiv 2) }, none)
    else (l, none)
  | .clearCopyFeedback =>
    let l := { l with copyFeedback := "" }
    ({ l with viewport := l.viewport.SetContent l.renderContent }, none)
  | .mouseWheelUp => if l.focused = false then (l, none) else (l.moveCursor (-1), none)
  | .mouseWheelDown => if l.focused = false then (l, none) else (l.moveCursor 1, none)
  | .focus =>
    let l := { l with focused := true, cursor := 0 }
    let l := { l with viewport := l.viewport.SetContent l.renderContent }
    ({ l with viewport := l.viewport.ScrollToTop }, none)
  | .blur => ({ l with focused := false }, none)
  | _ => (l, none)

/-- View: the pending clipboard escape text, then the scrollable body. -/
def LinksSection.View (l : LinksSection) : String :=
  l.pendingClipboard ++ l.viewport.ViewWithScrollbar l.theme

/-! ### Claim C5: the clipboard escape sequence is emitted exactly once -/

/-- The five characters opening an OSC 52 clipboard sequence. -/
def osc52Pat : List Char := [escChar, ']', '5', '2', ';']

/-- countPat pat l counts the positions of l at which pat occurs. -/
def countPat (pat : List Char) : List Char → Nat
  | [] => 0
  | c :: rest =>
    (if (c :: rest).take pat.length = pat then 1 else 0) + countPat pat rest

theorem countPat_osc52_of_no_esc (a b : List Char)
    (ha : ∀ c ∈ a, c ≠ escChar) :
    countPat osc52Pat (a ++ b) = countPat osc52Pat b := by
  induction a with
  | nil => rfl
  | cons c a ih =>
    have hc : c ≠ escChar := ha c (List.mem_cons_self c a)
    simp only [List.cons_append, countPat, List.append_eq]
    rw [ih (fun x hx => ha x (List.mem_cons_of_mem c hx))]
    rw [if_neg ?_, Nat.zero_add]
    intro h
    rw [show osc52Pat.length = 5 from rfl] at h
    rw [List.take_succ_cons] at h
    simp only [osc52Pat, List.cons.injEq] at h
    exact hc h.1

theorem base64Char_ne_esc (n : Nat) : base64Char n ≠ escChar := by
  have hmem : base64Char n ∈ base64Alphabet := by
    simp only [base64Char]
    have hlt : n % 64 < base64Alphabet.length := by
      have h64 : base64Alphabet.length = 64 := rfl
      rw [h64]
      exact Nat.mod_lt n (by decide)
    rw [List.getD_eq_getElem _ _ hlt]
    exact List.getElem_mem hlt
  have hall : ∀ c ∈ base64Alphabet, c ≠ escChar := by decide
  exact hall _ hmem

theorem base64Chunks_no_esc : ∀ (bs : List Nat), ∀ c ∈ base64Chunks bs, c ≠ escChar
  | [] => by simp [base64Chunks]
  | [b0] => by
    simp only [base64Chunks, List.mem_cons, List.not_mem_nil, or_false]
    rintro c (rfl | rfl | rfl | rfl)
    · exact base64Char_ne_esc _
    · exact base64Char_ne_esc _
    · decide
    · decide
  | [b0, b1] => by
    simp only [base64Chunks, List.mem_cons, List.not_mem_nil, or_false]
    rintro c (rfl | rfl | rfl | rfl)
    · exact base64Char_ne_esc _
    · exact base64Char_ne_esc _
    · exact base64Char_ne_esc _
    · decide
  | b0 :: b1 :: b2 :: b3 :: rest => by
    have ih := base64Chunks_no_esc (b3 :: rest)
    simp only [base64Chunks, List.mem_cons]
    rintro c (rfl | rfl | rfl | rfl | hc)
    · exact base64Char_ne_esc _
    · exact base64Char_ne_esc _
    · exact base64Char_ne_esc _
    · exact base64Char_ne_esc _
    · exact ih c hc
  | [b0, b1, b2] => by
    simp only [base64Chunks, List.mem_cons, List.not_mem_nil, or_false]
    rintro c (rfl | rfl | rfl | rfl)
    · exact base64Char_ne_esc _
    · exact base64Char_ne_esc _
    · exact base64Char_ne_esc _
    · exact base64Char_ne_esc _

theorem countPat_osc52_full (mid body : List Char)
    (hmid : ∀ c ∈ mid, c ≠ escChar)
    (hbody : countPat osc52Pat body = 0) :
    countPat osc52Pat
      (escChar :: ((']' :: '5' :: '2' :: ';' :: mid) ++ body)) = 1 := by
  have ha : ∀ c ∈ (']' :: '5' :: '2' :: ';' :: mid), c ≠ escChar := by
    intro c hc
    simp only [List.mem_cons] at hc
    rcases hc with rfl | rfl | rfl | rfl | hc
    · decide
    · decide
    · decide
    · decide
    · exact hmid c hc
  have hT : countPat osc52Pat ((']' :: '5' :: '2' :: ';' :: mid) ++ body) = 0 := by
    rw [countPat_osc52_of_no_esc _ _ ha, hbody]
  show (if List.take osc52Pat.length
      (escChar :: ((']' :: '5' :: '2' :: ';' :: mid) ++ body)) = osc52Pat
    then 1 else 0) + countPat osc52Pat ((']' :: '5' :: '2' :: ';' :: mid) ++ body) = 1
  have hTake : List.take osc52Pat.length
      (escChar :: ((']' :: '5' :: '2' :: ';' :: mid) ++ body)) = osc52Pat := by
    simp [osc52Pat, List.take_succ_cons]
  rw [hT, if_pos hTake]

theorem countPat_OSC52_view (url bodyStr : String)
    (hbody : countPat osc52Pat bodyStr.data = 0) :
    countPat osc52Pat (OSC52Sequence url ++ bodyStr).data = 1 := by
  have hshape : (OSC52Sequence url ++ bodyStr).data =
      escChar :: ((']' :: '5' :: '2' :: ';' ::
        ('c' :: ';' :: ((base64Encode url).data ++ [belChar]))) ++ bodyStr.data) := by
    simp [OSC52Sequence, String.data_append, List.append_assoc, escChar, belChar]
  rw [hshape]
  apply countPat_osc52_full
  · intro c hc
    simp only [List.mem_cons, List.mem_append, List.mem_singleton,
      List.not_mem_nil, or_false] at hc
    rcases hc with rfl | rfl | hc | rfl
    · decide
    · decide
    · exact base64Chunks_no_esc _ c hc
    · decide
  · exact hbody

/-- A message that triggers a fresh clipboard copy: Enter while focused
with a selected link whose URL is non-empty. -/
def isActivation (l : LinksSection) (m : Msg) : Bool :=
  l.focused && (m == Msg.key "enter") &&
    (match l.content with
     | some c =>
       decide (l.cursor < (c.links.length : Int)) &&
         decide ((c.links.getD l.cursor.toNat zeroLink).url ≠ "")
     | none => false)

theorem moveCursor_pending (l : LinksSection) (d : Int) :
    (l.moveCursor d).pendingClipboard = l.pendingClipboard := by
  simp only [LinksSection.moveCursor]
  split
  · rfl
  · split_ifs <;> rfl

theorem pending_cleared (l : LinksSection) (m : Msg)
    (h : isActivation l m = false) :
    ((l.Update m).1).pendingClipboard = "" := by
  cases m <;> simp only [LinksSection.Update]
  case key s =>
    by_cases h1 : l.focused = false
    · rw [if_pos h1]
    · rw [if_neg h1]
      have hfoc : l.focused = true := by
        revert h1
        cases l.focused <;> simp
      by_cases h2 : s = "j" ∨ s = "down"
      · rw [if_pos h2, moveCursor_pending]
      · rw [if_neg h2]
        by_cases h3 : s = "k" ∨ s = "up"
        · rw [if_pos h3, moveCursor_pending]
        · rw [if_neg h3]
          by_cases h4 : s = "g" ∨ s = "home"
          · rw [if_pos h4]
          · rw [if_neg h4]
            by_cases h5 : s = "G" ∨ s = "end"
            · rw [if_pos h5]
              cases l.content <;> simp only [] <;> split_ifs <;> rfl
            · rw [if_neg h5]
              by_cases h6 : s = "enter"
              · rw [if_pos h6]
                cases hcc : l.content with
                | none => rfl
                | some c =>
                  simp only [Option.some.injEq]
                  split_ifs with h7 h8
                  · rfl
                  · exfalso
                    have hact : isActivation l (.key s) = true := by
                      simp only [isActivation, h6, hfoc, hcc, Bool.true_and,
                        beq_self_eq_true, Bool.and_eq_true, decide_eq_true_eq]
                      exact ⟨h7, h8⟩
                    rw [hact] at h
                    exact Bool.noConfusion h
                  · rfl
              · rw [if_neg h6]
                split_ifs <;> rfl
  case mouseWheelUp =>
    split_ifs
    · rfl
    · rw [moveCursor_pending]
  case mouseWheelDown =>
    split_ifs
    · rfl
    · rw [moveCursor_pending]

theorem update_enter_pending (l : LinksSection) (c : LinksData)
    (hfoc : l.focused = true) (hc : l.content = some c)
    (hcur : l.cursor < (c.links.length : Int))
    (hurl : (c.links.getD l.cursor.toNat zeroLink).url ≠ "") :
    ((l.Update (.key "enter")).1).pendingClipboard =
      OSC52Sequence ((c.links.getD l.cursor.toNat zeroLink).url) := by
  simp only [LinksSection.Update]
  rw [if_neg (by simp [hfoc]), if_neg (by decide), if_neg (by decide),
    if_neg (by decide), if_neg (by decide), if_pos trivial, hc]
  simp only [Option.some.injEq]
  rw [if_pos hcur, if_neg hurl]

/-- A plain theme (no color profile: styles render as identity). -/
def demoTheme : Theme := ⟨⟨"", ""⟩, ⟨"", ""⟩, ⟨"", ""⟩, ⟨"", ""⟩⟩
/-- One demo link with a non-empty URL. -/
def demoLinks : LinksData := ⟨[⟨"a", "", "http://x"⟩]⟩
/-- The demo links section, freshly constructed. -/
def demoL0 : LinksSection := NewLinksSection (some demoLinks) demoTheme
/-- The demo section after a 12 by 4 resize. -/
def demoSized : LinksSection := (demoL0.Update (.windowSize 12 4)).1
/-- The demo section after receiving focus. -/
def demoFocused : LinksSection := (demoSized.Update .focus).1
/-- The demo section right after the first Enter. -/
def demoEnter1 : LinksSection := (demoFocused.Update (.key "enter")).1
/-- The demo section after a second Enter. -/
def demoEnter2 : LinksSection := (demoEnter1.Update (.key "enter")).1
/-- The demo section after Enter followed by a "k" key. -/
def demoK : LinksSection := (demoEnter1.Update (.key "k")).1

/-- Claim C5, amended: after Enter in a focused links section whose
selected link has a non-empty URL, the next View() output contains the
OSC 52 clipboard escape sequence exactly once (the rendered list body
itself containing none, as holds for real link content); the View()
after the next processed event no longer contains it, provided that
event is not itself a new copy activation — the pending clipboard text
is cleared at the start of every update cycle. -/
theorem C5_clipboard_emitted_once (l : LinksSection) (c : LinksData) (m : Msg)
    (hfoc : l.focused = true) (hc : l.content = some c)
    (hcur : l.cursor < (c.links.length : Int))
    (hurl : (c.links.getD l.cursor.toNat zeroLink).url ≠ "")
    (hbody1 : countPat osc52Pat
      (((l.Update (.key "enter")).1).viewport.ViewWithScrollbar
        ((l.Update (.key "enter")).1).theme).data = 0)
    (hm : isActivation ((l.Update (.key "enter")).1) m = false)
    (hbody2 : countPat osc52Pat
      ((((l.Update (.key "enter")).1).Update m).1.viewport.ViewWithScrollbar
        (((l.Update (.key "enter")).1).Update m).1.theme).data = 0) :
    countPat osc52Pat ((l.Update (.key "enter")).1).View.data = 1 ∧
      countPat osc52Pat ((((l.Update (.key "enter")).1).Update m).1).View.data = 0 := by
  constructor
  · simp only [LinksSection.View]
    rw [update_enter_pending l c hfoc hc hcur hurl]
    exact countPat_OSC52_view _ _ hbody1
  · simp only [LinksSection.View]
    rw [pending_cleared _ _ hm, String.data_append]
    rw [show ("" : String).data = [] from rfl, List.nil_append]
    exact hbody2

/-- Counterexample to claim C5 as stated: when the next processed event
is itself another Enter on the same non-empty URL, the following View()
output contains the clipboard sequence once more — not zero times as the
claim requires for an arbitrary next event. -/
theorem C5_counterexample :
    countPat osc52Pat demoEnter1.View.data = 1 ∧
      countPat osc52Pat demoEnter2.View.data = 1 := by
  constructor <;> decide

/-- Witness for the amended claim C5 at the concrete demo section: Enter
emits the sequence exactly once and a subsequent "k" key leaves the next
render without it. -/
theorem C5_clipboard_emitted_once_witness :
    countPat osc52Pat ((demoFocused.Update (.key "enter")).1).View.data = 1 ∧
      countPat osc52Pat
        ((((demoFocused.Update (.key "enter")).1).Update (.key "k")).1).View.data = 0 :=
  C5_clipboard_emitted_once demoFocused demoLinks (.key "k")
    (by decide) (by decide) (by decide) (by decide) (by decide) (by decide)
    (by decide)
